import Mathlib

/-!
Verification of the nomad-vmonitor image-freshness engine.

Rust strings (`&str` / `String`) are modelled as `List Char`; the string
methods used by the source (`split_once`, `split`, `contains`, `strip_prefix`,
`replace`, `usize::parse`) are given as explicit list functions with the same
semantics.  Fallible Rust functions returning `Result<T, E>` become
`Except E T`; code paths that call `.unwrap()` on a possibly-absent value are
modelled with an explicit `panicked` outcome.
-/

namespace NomadVMonitor

/-- Rust `str::split_once(sep)`: split at the first occurrence of `sep`,
returning the pieces before and after it, or `none` when `sep` is absent. -/
def splitOnceChar (sep : Char) : List Char → Option (List Char × List Char)
  | [] => none
  | c :: rest =>
    if c = sep then some ([], rest)
    else
      match splitOnceChar sep rest with
      | some (a, b) => some (c :: a, b)
      | none => none

/-- Rust `str::split(sep)` collected to a list: always at least one piece,
empty pieces kept (`"a//b" ↦ ["a", "", "b"]`, `"" ↦ [""]`). -/
def splitChar (sep : Char) : List Char → List (List Char)
  | [] => [[]]
  | c :: rest =>
    if c = sep then [] :: splitChar sep rest
    else
      match splitChar sep rest with
      | [] => [[c]]
      | g :: gs => (c :: g) :: gs

/-- Numeric value of an ASCII digit character. -/
def digitVal (c : Char) : Nat := c.toNat - 48

/-- Parse a non-empty all-digit character list as a natural number
(most significant digit first). -/
def parseDigits (cs : List Char) : Option Nat :=
  if cs ≠ [] ∧ cs.all Char.isDigit then
    some (cs.foldl (fun a c => a * 10 + digitVal c) 0)
  else none

/-- Rust `str::parse::<usize>()`: an optional leading `+` sign followed by at
least one digit.  (The `usize` overflow failure mode is not modelled; every
version component in the development is small.) -/
def parseUsize (cs : List Char) : Option Nat :=
  match cs with
  | c :: rest => if c = '+' then parseDigits rest else parseDigits (c :: rest)
  | [] => parseDigits []

/-- `enum Version` from `src/docker.rs`. -/
inductive Version where
  | Latest : Version
  | Semantic (major : Nat) (minor : Option Nat) (patch : Option Nat) : Version
deriving DecidableEq

/-- Rust `usize::cmp`. -/
def cmpNat (a b : Nat) : Ordering :=
  if a < b then .lt else if b < a then .gt else .eq

/-- Embeds `impl PartialOrd for Version` (`partial_cmp`, docker.rs:257-299),
with every early `return` of the Rust code made explicit.  Note that when both
minors are absent the function returns `Equal` without inspecting the patch
components, exactly as the source does. -/
def Version.compareOpt (a b : Version) : Option Ordering :=
  match a, b with
  | .Latest, .Latest => some .eq
  | .Latest, _ => some .lt
  | _, .Latest => some .gt
  | .Semantic smajor sminor spatch, .Semantic omajor ominor opatch =>
    match cmpNat smajor omajor with
    | .eq =>
      match sminor, ominor with
      | none, none => some .eq
      | some _, none => some .lt
      | none, some _ => some .gt
      | some sm, some om =>
        match cmpNat sm om with
        | .eq =>
          match spatch, opatch with
          | none, none => some .eq
          | some _, none => some .lt
          | none, some _ => some .gt
          | some sp, some op => some (cmpNat sp op)
        | o => some o
    | o => some o

/-- Rust `str::strip_prefix('v').unwrap_or(self)` as used by the tag parser. -/
def stripLeadingV (s : List Char) : List Char :=
  match s with
  | c :: rest => if c = 'v' then rest else c :: rest
  | [] => []

/-- Embeds `RawTag::parse_version` (docker.rs:312-335).  The second and third
`.` separated components are parsed with `and_then(parse.ok)`: a non-numeric
component yields `none` rather than an error. -/
def parse_version (tag : List Char) : Except Unit Version :=
  if tag = "latest".data then .ok .Latest
  else
    match splitChar '.' (stripLeadingV tag) with
    | [] => .error ()
    | rawMajor :: rest =>
      match parseUsize rawMajor with
      | none => .error ()
      | some major =>
        .ok (.Semantic major (rest.head?.bind parseUsize)
              ((rest.drop 1).head?.bind parseUsize))

/-- Digit characters of `n`, most significant first, empty for `n = 0`.
The first argument is recursion fuel (any bound `≥ n` gives the same
result), keeping the recursion structural. -/
def natCharsCore : Nat → Nat → List Char
  | 0, _ => []
  | _, 0 => []
  | fuel + 1, n => natCharsCore fuel (n / 10) ++ [Nat.digitChar (n % 10)]

/-- Decimal rendering of a natural number, as Rust's `Display` for `usize`. -/
def natChars (n : Nat) : List Char :=
  if n = 0 then ['0'] else natCharsCore (n + 1) n

/-- Embeds `impl Display for Version` (docker.rs:232-255): when `minor` is
absent the function returns early and the patch component is never printed. -/
def Version.display : Version → List Char
  | .Latest => "latest".data
  | .Semantic major minor patch =>
    natChars major ++
      (match minor with
       | none => []
       | some mi =>
         '.' :: natChars mi ++
           (match patch with
            | none => []
            | some pa => '.' :: natChars pa))

/-- Embeds `Version::fully_qualified` (docker.rs:338-345). -/
def Version.fully_qualified : Version → Bool
  | .Latest => true
  | .Semantic _ minor patch => minor.isSome && patch.isSome

/-- `struct Image` from `src/docker.rs` (field `namespace` is renamed
`nspace` because `namespace` is a Lean keyword; `tag` holds the raw tag
string wrapped by `RawTag` in the source). -/
structure Image where
  registry : List Char
  nspace : Option (List Char)
  name : List Char
  tag : List Char
deriving DecidableEq

/-- The part of a raw image string before the first `:` (the whole string
when there is no `:`), as produced by `raw.split_once(':')` in
`Image::parse`. -/
def namePart (raw : List Char) : List Char :=
  match splitOnceChar ':' raw with
  | some fs => fs.1
  | none => raw

/-- The tag part of a raw image string: everything after the first `:`, or
the literal `latest` when there is no `:` (`Image::parse`, docker.rs:174-187). -/
def tagPart (raw : List Char) : List Char :=
  match splitOnceChar ':' raw with
  | some fs => fs.2
  | none => "latest".data

/-- The `/`-separated segments of the name portion that remain after the
optional registry segment (a first segment containing `.`) is consumed. -/
def segsAfterRegistry (raw : List Char) : List (List Char) :=
  match splitChar '/' (namePart raw) with
  | [] => []
  | p0 :: rest => if '.' ∈ p0 then rest else p0 :: rest

/-- Embeds `Image::parse` (docker.rs:169-215): reject on `$`; split tag off at
the first `:` (default `latest`); split the rest on `/`; a first segment
containing `.` is the registry, else the Docker Hub default; exactly one
remaining segment is the name, exactly two are namespace and name, anything
else is rejected with the original raw string as payload. -/
def Image.parse (raw : List Char) : Except (List Char) Image :=
  if '$' ∈ raw then .error raw
  else
    match splitChar '/' (namePart raw) with
    | [] => .error raw
    | p0 :: rest =>
      let registry : List Char :=
        if '.' ∈ p0 then p0 else "registry.hub.docker.com".data
      let parts : List (List Char) := if '.' ∈ p0 then rest else p0 :: rest
      match parts with
      | [n] => .ok { registry := registry, nspace := none, name := n, tag := tagPart raw }
      | [ns, n] => .ok { registry := registry, nspace := some ns, name := n, tag := tagPart raw }
      | _ => .error raw

/-- Host and path of an outgoing HTTP request. -/
structure RequestTarget where
  host : List Char
  path : List Char
deriving DecidableEq

/-- The URL that `try_get_tags` (docker.rs:77-89) sends the tag-list request
to: the base URL is the constant `https://registry.hub.docker.com` parsed on
line 82 (the parsed image's `registry` field is not consulted), joined with
`v2/{namespace}/{name}/tags/list` or `v2/library/{name}/tags/list`. -/
def tryGetTagsTarget (image : Image) : RequestTarget :=
  { host := "registry.hub.docker.com".data
    path :=
      match image.nspace with
      | some n => "/v2/".data ++ n ++ "/".data ++ image.name ++ "/tags/list".data
      | none => "/v2/library/".data ++ image.name ++ "/tags/list".data }

/-- Tag-list request path as the specification words it:
`/v2/{namespace-or-"library"}/{name}/tags/list`. -/
def specTagListPath (image : Image) : List Char :=
  "/v2/".data ++ image.nspace.getD "library".data ++ "/".data ++
    image.name ++ "/tags/list".data

/-- `struct AuthConfig` from `src/docker.rs`. -/
structure AuthConfig where
  realm : List Char
  service : List Char
  scope : List Char
deriving DecidableEq

/-- `enum AuthError` from `src/docker.rs` (payloads reduced to the status
code; the transport error payloads carry no information the claims use). -/
inductive AuthErrorKind where
  | sendRequest
  | statusCode (code : Nat)
  | loadingBytes
  | jwtToken
deriving DecidableEq

/-- `enum GetTagsError` from `src/docker.rs`. -/
inductive GetTagsError where
  | authError (e : AuthErrorKind)
  | failedAuth
  | sendRequest
  | statusCode (code : Nat)
  | loadingBytes
deriving DecidableEq

/-- Result of a computation that may hit a Rust `panic` (an `.unwrap()` of a
`None`/`Err` value) instead of returning. -/
inductive PanicOr (α : Type) where
  | ok (val : α)
  | panicked
deriving DecidableEq

/-- `enum FetchResult` from `src/docker.rs`, extended with the `panicked`
outcome for the `.unwrap()` calls inside `try_get_tags`. -/
inductive FetchOutcome where
  | ok (tags : List (List Char))
  | needsAuth (conf : AuthConfig)
  | err (e : GetTagsError)
  | panicked
deriving DecidableEq

/-- Rust `str::replace('"', "")`. -/
def removeQuotes (v : List Char) : List Char := v.filter (fun c => c ≠ '"')

/-- Lookup in an association list where a later binding for the same key
shadows an earlier one, matching `BTreeMap::from_iter` + `remove`. -/
def lookupLast (pairs : List (List Char × List Char)) (key : List Char) :
    Option (List Char) :=
  match pairs with
  | [] => none
  | (k, v) :: rest =>
    match lookupLast rest key with
    | some r => some r
    | none => if k = key then some v else none

/-- Embeds the 401 branch of `try_get_tags` (docker.rs:109-131): a missing
`www-authenticate` header is `GetTagsError::FailedAuth`; otherwise the header
is split after the scheme token (`split_once(' ').unwrap()` — panics when no
space is present), parsed into comma-separated `key=value` pairs with quotes
stripped, and the three keys are extracted by `remove(..).unwrap()` — panics
when any of `realm`, `service`, `scope` is absent. -/
def handle401 (headerValue : Option (List Char)) : FetchOutcome :=
  match headerValue with
  | none => .err .failedAuth
  | some h =>
    match splitOnceChar ' ' h with
    | none => .panicked
    | some sp =>
      let parts := (splitChar ',' sp.2).filterMap
        (fun part => (splitOnceChar '=' part).map
          (fun kv => (kv.1, removeQuotes kv.2)))
      match lookupLast parts "realm".data, lookupLast parts "service".data,
          lookupLast parts "scope".data with
      | some r, some s, some sc =>
        .needsAuth { realm := r, service := s, scope := sc }
      | _, _, _ => .panicked

/-- Embeds `get_tags` (docker.rs:139-158) with the two network fetches and
the token request abstracted as oracles: `first` is the outcome of the
anonymous `try_get_tags`, `authFn` the outcome of `auth` for a given
challenge, `second` the outcome of the retried `try_get_tags` for a given
bearer token.  The second component of the result counts how many times
`auth` was invoked. -/
def getTags (first : FetchOutcome)
    (authFn : AuthConfig → Except AuthErrorKind (List Char))
    (second : List Char → FetchOutcome) :
    PanicOr (Except GetTagsError (List (List Char))) × Nat :=
  match first with
  | .ok tags => (.ok (.ok tags), 0)
  | .err e => (.ok (.error e), 0)
  | .panicked => (.panicked, 0)
  | .needsAuth conf =>
    match authFn conf with
    | .error e => (.ok (.error (.authError e)), 1)
    | .ok token =>
      match second token with
      | .ok tags => (.ok (.ok tags), 1)
      | .needsAuth _ => (.ok (.error .failedAuth), 1)
      | .err e => (.ok (.error e), 1)
      | .panicked => (.panicked, 1)

/-- `struct JobListEntry` from `src/nomad.rs`. -/
structure JobListEntry where
  id : List Char
  parentID : List Char
  name : List Char
  type_ : List Char
  priority : Nat

/-- `enum ReadJobConfig` from `src/nomad.rs`. -/
inductive ReadJobConfig where
  | docker (image : List Char)
  | rawExec

/-- `struct ReadJobTask` from `src/nomad.rs`. -/
structure ReadJobTask where
  name : List Char
  config : ReadJobConfig

/-- `struct ReadJobTaskGroup` from `src/nomad.rs`. -/
structure ReadJobTaskGroup where
  name : List Char
  count : Nat
  tasks : List ReadJobTask

/-- `struct ReadJobResponse` from `src/nomad.rs`. -/
structure ReadJobResponse where
  id : List Char
  name : List Char
  parent_id : List Char
  task_groups : List ReadJobTaskGroup

/-- The per-entry body of the task-collection loop in `Client::check`
(lib.rs:60-71): `read_job(..).unwrap()` — an `Err` from `read_job`
panics — then jobs with a non-empty `parent_id` are skipped. -/
def collectLoop (readJob : List Char → Except Unit ReadJobResponse) :
    List JobListEntry → PanicOr (List ReadJobResponse)
  | [] => .ok []
  | e :: rest =>
    match readJob e.id with
    | .error _ => .panicked
    | .ok task =>
      if task.parent_id ≠ [] then collectLoop readJob rest
      else
        match collectLoop readJob rest with
        | .ok tasks => .ok (task :: tasks)
        | .panicked => .panicked

/-- The job-fetch stage of `Client::check` (lib.rs:51-73):
`list_jobs(..).unwrap()` — an `Err` from `list_jobs` panics the task — then
each listed job's detail is fetched and unwrapped by `collectLoop`.  The
results of the two network calls are supplied as oracles. -/
def collectTasks (listResult : Except Unit (List JobListEntry))
    (readJob : List Char → Except Unit ReadJobResponse) :
    PanicOr (List ReadJobResponse) :=
  match listResult with
  | .error _ => .panicked
  | .ok entries => collectLoop readJob entries

/-! ### Helper lemmas -/

theorem cmpNat_self (a : Nat) : cmpNat a a = .eq := by simp [cmpNat]

theorem latest_data : "latest".data = ['l', 'a', 't', 'e', 's', 't'] := rfl

theorem splitOnceChar_some (sep : Char) :
    ∀ (s a b : List Char), splitOnceChar sep s = some (a, b) →
      s = a ++ sep :: b ∧ sep ∉ a := by
  intro s
  induction s with
  | nil => intro a b h; simp [splitOnceChar] at h
  | cons c t ih =>
    intro a b h
    unfold splitOnceChar at h
    by_cases hc : c = sep
    · rw [if_pos hc] at h
      simp only [Option.some.injEq, Prod.mk.injEq] at h
      obtain ⟨h1, h2⟩ := h
      subst h1; subst h2; subst hc
      exact ⟨rfl, by simp⟩
    · rw [if_neg hc] at h
      rcases hr : splitOnceChar sep t with _ | ⟨a', b'⟩ <;> rw [hr] at h
      · simp at h
      · simp only [Option.some.injEq, Prod.mk.injEq] at h
        obtain ⟨h1, h2⟩ := h
        subst h1; subst h2
        obtain ⟨ih1, ih2⟩ := ih a' b' hr
        refine ⟨by rw [ih1]; rfl, ?_⟩
        intro hmem
        rcases List.mem_cons.mp hmem with h' | h'
        · exact hc h'.symm
        · exact ih2 h'

theorem splitOnceChar_none (sep : Char) :
    ∀ s : List Char, splitOnceChar sep s = none → sep ∉ s := by
  intro s
  induction s with
  | nil => intro _ h; simp at h
  | cons c t ih =>
    intro h hmem
    unfold splitOnceChar at h
    by_cases hc : c = sep
    · rw [if_pos hc] at h; simp at h
    · rw [if_neg hc] at h
      rcases hr : splitOnceChar sep t with _ | p <;> rw [hr] at h
      · rcases List.mem_cons.mp hmem with h' | h'
        · exact hc h'.symm
        · exact ih hr h'
      · simp at h

theorem splitChar_not_mem (sep : Char) :
    ∀ cs : List Char, sep ∉ cs → splitChar sep cs = [cs] := by
  intro cs
  induction cs with
  | nil => intro _; rfl
  | cons c t ih =>
    intro h
    have hc : ¬c = sep := fun he => h (he ▸ List.mem_cons_self c t)
    have ht : sep ∉ t := fun hm => h (List.mem_cons_of_mem c hm)
    unfold splitChar
    rw [if_neg hc, ih ht]

theorem splitChar_append_sep (sep : Char) :
    ∀ (cs rest : List Char), sep ∉ cs →
      splitChar sep (cs ++ sep :: rest) = cs :: splitChar sep rest := by
  intro cs
  induction cs with
  | nil =>
    intro rest _
    rw [List.nil_append]
    simp only [splitChar]
    simp
  | cons c t ih =>
    intro rest h
    have hc : ¬c = sep := fun he => h (he ▸ List.mem_cons_self c t)
    have ht : sep ∉ t := fun hm => h (List.mem_cons_of_mem c hm)
    rw [List.cons_append]
    simp only [splitChar]
    rw [if_neg hc, ih rest ht]

/-! ### Claim theorems -/

/-- C1 (counterexample): the claim says that at the minor position a missing
component compares as less than a present one, so
`Semantic{1, None, None} < Semantic{1, Some(0), None}` should give `Less`;
the source's `partial_cmp` returns `Greater` for exactly this input. -/
theorem version_missing_minor_not_less :
    Version.compareOpt (.Semantic 1 none none) (.Semantic 1 (some 0) none) =
      some .gt ∧
    Version.compareOpt (.Semantic 1 none none) (.Semantic 1 (some 0) none) ≠
      some .lt := by decide

/-- C1 (amended): in `partial_cmp`, when the earlier components are equal, a
missing minor or patch component compares as **greater** than a present one,
two missing components compare as equal, and consequently
`Semantic{m, None, None}` is greater than every `Semantic{m, Some(x), _}`. -/
theorem version_missing_beats_present (m x px : Nat) (p : Option Nat) :
    Version.compareOpt (.Semantic m none none) (.Semantic m (some x) p) =
      some .gt ∧
    Version.compareOpt (.Semantic m (some x) p) (.Semantic m none none) =
      some .lt ∧
    Version.compareOpt (.Semantic m (some x) none)
      (.Semantic m (some x) (some px)) = some .gt ∧
    Version.compareOpt (.Semantic m (some x) (some px))
      (.Semantic m (some x) none) = some .lt ∧
    Version.compareOpt (.Semantic m none none) (.Semantic m none none) =
      some .eq := by
  refine ⟨?_, ?_, ?_, ?_, ?_⟩ <;> simp [Version.compareOpt, cmpNat_self]

/-- C2 (code bug): when `list_jobs` fails, or when `read_job` fails for a
listed job, `Client::check` calls `.unwrap()` on the error and panics the
reconciliation task instead of logging and proceeding to the next tick. -/
theorem check_unwraps_job_fetch_errors :
    collectTasks (Except.error ()) (fun _ => Except.error ()) =
      PanicOr.panicked ∧
    collectTasks
      (Except.ok [{ id := "job1".data, parentID := [], name := [],
                    type_ := [], priority := 0 }])
      (fun _ => Except.error ()) = PanicOr.panicked :=
  ⟨rfl, rfl⟩

/-- C3 (counterexample): the image parsed from `test.com/user/test:version`
stores registry host `test.com`, yet the tag-list request built by
`try_get_tags` is addressed to the hard-coded `registry.hub.docker.com`. -/
theorem tag_request_ignores_parsed_registry :
    Image.parse "test.com/user/test:version".data =
      Except.ok { registry := "test.com".data, nspace := some "user".data,
                  name := "test".data, tag := "version".data } ∧
    (tryGetTagsTarget { registry := "test.com".data, nspace := some "user".data,
                        name := "test".data, tag := "version".data }).host ≠
      "test.com".data :=
  ⟨rfl, by decide⟩

/-- C3 (amended): the anonymous tag-list request (and the authenticated
retry, which builds its URL identically) is always issued against the fixed
host `registry.hub.docker.com`, ignoring the parsed `registry` field, at path
`/v2/{namespace-or-"library"}/{name}/tags/list`. -/
theorem tag_request_fixed_host_and_path (img : Image) :
    (tryGetTagsTarget img).host = "registry.hub.docker.com".data ∧
    (tryGetTagsTarget img).path = specTagListPath img := by
  refine ⟨rfl, ?_⟩
  cases img with
  | mk registry nspace name tag => cases nspace <;> rfl

/-- C5 (confirmed): `get_tags` invokes `auth` at most once per call, and when
the authenticated retry itself reports needs-auth (a second 401), the result
is the terminal error `FailedAuth`. -/
theorem getTags_single_auth_round (first : FetchOutcome)
    (authFn : AuthConfig → Except AuthErrorKind (List Char))
    (second : List Char → FetchOutcome) :
    (getTags first authFn second).2 ≤ 1 ∧
    (∀ conf token conf2, first = FetchOutcome.needsAuth conf →
      authFn conf = Except.ok token →
      second token = FetchOutcome.needsAuth conf2 →
      (getTags first authFn second).1 =
        PanicOr.ok (Except.error GetTagsError.failedAuth)) := by
  constructor
  · cases first with
    | ok t => simp [getTags]
    | err e => simp [getTags]
    | panicked => simp [getTags]
    | needsAuth conf =>
      rcases hA : authFn conf with e | tok
      · simp [getTags, hA]
      · rcases hS : second tok <;> simp [getTags, hA, hS]
  · intro conf token conf2 h1 h2 h3
    subst h1
    simp [getTags, h2, h3]

/-- C5 witness: a concrete run where the anonymous attempt returns a 401
challenge, the token fetch succeeds, and the retry is again a 401. -/
theorem getTags_single_auth_round_witness :
    (getTags
      (.needsAuth { realm := "r".data, service := "s".data, scope := "sc".data })
      (fun _ => Except.ok "tok".data)
      (fun _ => .needsAuth { realm := "r".data, service := "s".data,
                             scope := "sc".data })).1 =
      PanicOr.ok (Except.error GetTagsError.failedAuth) :=
  (getTags_single_auth_round _ _ _).2 _ _ _ rfl rfl rfl

/-- C6 (code bug): the versions parsed from tags `1.x.0` and `1.x.1` are
structurally distinct, yet `partial_cmp` returns `Equal` for them (the
`(None, None)` minor case returns before inspecting the patch components), so
none of `a < b`, `a = b`, `a > b` holds — trichotomy fails. -/
theorem version_order_trichotomy_fails :
    Version.compareOpt (.Semantic 1 none (some 0)) (.Semantic 1 none (some 1)) =
      some .eq ∧
    Version.Semantic 1 none (some 0) ≠ .Semantic 1 none (some 1) ∧
    parse_version "1.x.0".data = .ok (.Semantic 1 none (some 0)) ∧
    parse_version "1.x.1".data = .ok (.Semantic 1 none (some 1)) :=
  ⟨by decide, by decide, rfl, rfl⟩

/-- C7 (counterexample): the claim says `"1.2.rc1"` parses as
`Semantic{1, None, None}`; the source parses the numeric second component, so
the result is `Semantic{1, Some(2), None}`. -/
theorem parse_version_keeps_numeric_minor :
    parse_version "1.2.rc1".data = .ok (.Semantic 1 (some 2) none) ∧
    Version.Semantic 1 (some 2) none ≠ .Semantic 1 none none :=
  ⟨rfl, by decide⟩

/-- C9 (code bug): on a 401 whose `WWW-Authenticate` header lacks one of the
required keys (`realm`, `service`, `scope`), the challenge handler panics on
`.unwrap()` instead of returning an error value; only a 401 with the header
missing entirely yields the error `FailedAuth`. -/
theorem challenge_missing_key_panics :
    handle401 (some "Bearer realm=\"r\",service=\"s\"".data) =
      FetchOutcome.panicked ∧
    handle401 (some "Bearer service=\"s\",scope=\"sc\"".data) =
      FetchOutcome.panicked ∧
    handle401 none = FetchOutcome.err GetTagsError.failedAuth ∧
    ∀ e : GetTagsError, FetchOutcome.panicked ≠ FetchOutcome.err e :=
  ⟨rfl, rfl, rfl, fun _ h => nomatch h⟩

theorem stripLeadingV_cons (c : Char) (t : List Char) (h : c ≠ 'v') :
    stripLeadingV (c :: t) = c :: t := by
  simp only [stripLeadingV, if_neg h]

theorem tagPart_spec (raw : List Char) :
    (':' ∉ raw ∧ tagPart raw = "latest".data) ∨
    (∃ pre, raw = pre ++ ':' :: tagPart raw ∧ ':' ∉ pre) := by
  rcases hs : splitOnceChar ':' raw with _ | ⟨a, b⟩
  · left
    have ht : tagPart raw = "latest".data := by unfold tagPart; rw [hs]
    exact ⟨splitOnceChar_none ':' raw hs, ht⟩
  · right
    have ht : tagPart raw = b := by unfold tagPart; rw [hs]
    obtain ⟨heq, hnot⟩ := splitOnceChar_some ':' raw a b hs
    exact ⟨a, by rw [ht]; exact heq, hnot⟩

theorem image_parse_ok_tag (raw : List Char) (img : Image)
    (h : Image.parse raw = Except.ok img) : img.tag = tagPart raw := by
  unfold Image.parse at h
  by_cases hd : '$' ∈ raw
  · rw [if_pos hd] at h; simp at h
  · rw [if_neg hd] at h
    rcases hs : splitChar '/' (namePart raw) with _ | ⟨p0, rest⟩ <;> rw [hs] at h
    · simp at h
    · dsimp only at h
      by_cases hdot : '.' ∈ p0
      · rw [if_pos hdot] at h
        rcases rest with _ | ⟨a, _ | ⟨b, _ | ⟨c2, t2⟩⟩⟩
        · simp at h
        · injection h with h'; rw [← h']
        · injection h with h'; rw [← h']
        · simp at h
      · rw [if_neg hdot] at h
        rcases rest with _ | ⟨a, _ | ⟨b, t2⟩⟩
        · injection h with h'; rw [← h']
        · injection h with h'; rw [← h']
        · simp at h

/-- C4 (counterexample): the claim says the tag is everything after the
*last* `:`, which for `test:1.0:2.0` would be `2.0`; the source splits at the
*first* `:` and stores tag `1.0:2.0`. -/
theorem image_parse_first_colon_cex :
    Image.parse "test:1.0:2.0".data =
      Except.ok { registry := "registry.hub.docker.com".data, nspace := none,
                  name := "test".data, tag := "1.0:2.0".data } ∧
    ':' ∈ "1.0:2.0".data ∧ "1.0:2.0".data ≠ "2.0".data :=
  ⟨rfl, by decide, by decide⟩

/-- C4 (amended): image parsing separates the tag from the name by splitting
the raw string at its **first** `:`: every successfully parsed image either
came from a `:`-free input and carries the default tag `latest`, or its tag
is exactly the text after the first `:` of the input. -/
theorem image_parse_tag_after_first_colon (raw : List Char) (img : Image)
    (h : Image.parse raw = Except.ok img) :
    (':' ∉ raw ∧ img.tag = "latest".data) ∨
    (∃ pre, raw = pre ++ ':' :: img.tag ∧ ':' ∉ pre) := by
  have ht := image_parse_ok_tag raw img h
  rw [ht]
  exact tagPart_spec raw

/-- C4 witness: the amended claim applied to the concrete reference
`test:version`. -/
theorem image_parse_tag_after_first_colon_witness :
    (':' ∉ "test:version".data ∧ ("version".data : List Char) = "latest".data) ∨
    (∃ pre, "test:version".data = pre ++ ':' :: "version".data ∧ ':' ∉ pre) :=
  image_parse_tag_after_first_colon "test:version".data
    { registry := "registry.hub.docker.com".data, nspace := none,
      name := "test".data, tag := "version".data } rfl

/-- C7 (amended): non-numeric second or third tag components are treated as
absent rather than as a parse error: for dot-free components `mi`, `pa`, the
tag `1.{mi}.{pa}` parses to `Semantic{1, parse(mi), parse(pa)}` where a
non-numeric component contributes `None`.  In particular `1.2.rc1` parses as
`Semantic{1, Some(2), None}` — only the patch is dropped. -/
theorem parse_version_lax_components (mi pa : List Char)
    (hmi : '.' ∉ mi) (hpa : '.' ∉ pa) :
    parse_version ('1' :: '.' :: (mi ++ '.' :: pa)) =
      .ok (.Semantic 1 (parseUsize mi) (parseUsize pa)) := by
  have hne : ('1' :: '.' :: (mi ++ '.' :: pa)) ≠ "latest".data := by
    rw [latest_data]
    intro h
    injection h with h1 _
    exact absurd h1 (by decide)
  have hstrip : stripLeadingV ('1' :: '.' :: (mi ++ '.' :: pa)) =
      '1' :: '.' :: (mi ++ '.' :: pa) :=
    stripLeadingV_cons _ _ (by decide)
  have hsplit : splitChar '.' ('1' :: '.' :: (mi ++ '.' :: pa)) =
      [['1'], mi, pa] := by
    have h2 : splitChar '.' (mi ++ '.' :: pa) = mi :: splitChar '.' pa :=
      splitChar_append_sep '.' mi pa hmi
    have h3 : splitChar '.' pa = [pa] := splitChar_not_mem '.' pa hpa
    show splitChar '.' (['1'] ++ '.' :: (mi ++ '.' :: pa)) = _
    rw [splitChar_append_sep '.' ['1'] _ (by decide), h2, h3]
  unfold parse_version
  rw [if_neg hne, hstrip, hsplit]
  rfl

/-- C7 witness: the amended claim evaluated at the tag `1.2.rc1`. -/
theorem parse_version_lax_components_witness :
    parse_version ('1' :: '.' :: ("2".data ++ '.' :: "rc1".data)) =
      .ok (.Semantic 1 (some 2) none) :=
  parse_version_lax_components "2".data "rc1".data (by decide) (by decide)

/-- C8 (confirmed): `Image::parse` rejects — returning the original raw
string as the error payload — every input containing `$`, every input whose
name portion keeps more than two `/`-separated segments after the optional
registry segment is consumed (in particular any input with more than two
segments before the name), and every input left with zero segments after the
registry segment is consumed. -/
theorem image_parse_rejections (raw : List Char)
    (h : '$' ∈ raw ∨ 2 < (segsAfterRegistry raw).length ∨
      segsAfterRegistry raw = []) :
    Image.parse raw = Except.error raw := by
  unfold Image.parse
  by_cases hd : '$' ∈ raw
  · rw [if_pos hd]
  · rw [if_neg hd]
    have h2 := h.resolve_left hd
    unfold segsAfterRegistry at h2
    rcases hs : splitChar '/' (namePart raw) with _ | ⟨p0, rest⟩
    · rfl
    · rw [hs] at h2
      dsimp only at h2 ⊢
      by_cases hdot : '.' ∈ p0
      · rw [if_pos hdot] at h2 ⊢
        rcases rest with _ | ⟨a, _ | ⟨b, _ | ⟨c2, t2⟩⟩⟩
        · rfl
        · simp at h2
        · simp at h2
        · rfl
      · rw [if_neg hdot] at h2 ⊢
        rcases rest with _ | ⟨a, _ | ⟨b, t2⟩⟩
        · simp at h2
        · simp at h2
        · rfl

/-- C8 witness: `a/b/c/d` (three path segments before the name) is
rejected with the raw string as payload. -/
theorem image_parse_rejections_witness :
    Image.parse "a/b/c/d".data = Except.error "a/b/c/d".data :=
  image_parse_rejections _ (Or.inr (Or.inl (by decide)))

theorem digitVal_digitChar {d : Nat} (h : d < 10) :
    digitVal (Nat.digitChar d) = d := by
  interval_cases d <;> decide

theorem isDigit_digitChar {d : Nat} (h : d < 10) :
    (Nat.digitChar d).isDigit = true := by
  interval_cases d <;> decide

theorem natCharsCore_succ (fuel n : Nat) (hn : n ≠ 0) :
    natCharsCore (fuel + 1) n =
      natCharsCore fuel (n / 10) ++ [Nat.digitChar (n % 10)] := by
  cases n with
  | zero => exact absurd rfl hn
  | succ m => rfl

theorem mem_natCharsCore_isDigit :
    ∀ fuel n c, c ∈ natCharsCore fuel n → c.isDigit = true := by
  intro fuel
  induction fuel with
  | zero => intro n c h; simp [natCharsCore] at h
  | succ fuel ih =>
    intro n c h
    cases n with
    | zero => simp [natCharsCore] at h
    | succ m =>
      rw [natCharsCore_succ fuel (m + 1) (by omega)] at h
      rcases List.mem_append.mp h with h1 | h2
      · exact ih _ _ h1
      · have hc : c = Nat.digitChar ((m + 1) % 10) := by simpa using h2
        rw [hc]
        exact isDigit_digitChar (Nat.mod_lt _ (by norm_num))

theorem natCharsCore_foldl :
    ∀ fuel n, n ≤ fuel →
      List.foldl (fun a c => a * 10 + digitVal c) 0 (natCharsCore fuel n) = n := by
  intro fuel
  induction fuel with
  | zero =>
    intro n h
    interval_cases n
    rfl
  | succ fuel ih =>
    intro n h
    cases n with
    | zero => rfl
    | succ m =>
      rw [natCharsCore_succ fuel (m + 1) (by omega), List.foldl_append]
      have hdiv : (m + 1) / 10 ≤ fuel := by
        have := Nat.div_lt_self (Nat.succ_pos m) (by norm_num : 1 < 10)
        omega
      rw [ih _ hdiv]
      simp only [List.foldl_cons, List.foldl_nil]
      rw [digitVal_digitChar (Nat.mod_lt _ (by norm_num))]
      omega

theorem natCharsCore_ne_nil (fuel n : Nat) (h1 : n ≠ 0) (h2 : n ≤ fuel) :
    natCharsCore fuel n ≠ [] := by
  cases fuel with
  | zero => omega
  | succ fuel =>
    rw [natCharsCore_succ fuel n h1]
    simp

theorem natChars_ne_nil (n : Nat) : natChars n ≠ [] := by
  unfold natChars
  by_cases h : n = 0
  · rw [if_pos h]; simp
  · rw [if_neg h]; exact natCharsCore_ne_nil _ _ h (by omega)

theorem mem_natChars_isDigit (n : Nat) (c : Char) (h : c ∈ natChars n) :
    c.isDigit = true := by
  unfold natChars at h
  by_cases h0 : n = 0
  · rw [if_pos h0] at h
    have : c = '0' := by simpa using h
    rw [this]; decide
  · rw [if_neg h0] at h
    exact mem_natCharsCore_isDigit _ _ _ h

theorem not_dot_mem_natChars (n : Nat) : '.' ∉ natChars n := fun h =>
  absurd (mem_natChars_isDigit n '.' h) (by decide)

theorem natChars_head (n : Nat) :
    ∃ c t, natChars n = c :: t ∧ c.isDigit = true := by
  rcases hq : natChars n with _ | ⟨c, t⟩
  · exact absurd hq (natChars_ne_nil n)
  · exact ⟨c, t, rfl, mem_natChars_isDigit n c (by rw [hq]; simp)⟩

theorem parseDigits_natChars (n : Nat) : parseDigits (natChars n) = some n := by
  unfold parseDigits
  rw [if_pos ?side]
  case side =>
    refine ⟨natChars_ne_nil n, ?_⟩
    rw [List.all_eq_true]
    intro c hc
    exact mem_natChars_isDigit n c hc
  congr 1
  unfold natChars
  by_cases h0 : n = 0
  · rw [if_pos h0]; rw [h0]; rfl
  · rw [if_neg h0]; exact natCharsCore_foldl (n + 1) n (by omega)

theorem parseUsize_natChars (n : Nat) : parseUsize (natChars n) = some n := by
  obtain ⟨c, t, hct, hdig⟩ := natChars_head n
  have hplus : c ≠ '+' := by
    intro he; rw [he] at hdig; exact absurd hdig (by decide)
  rw [hct]
  unfold parseUsize
  dsimp only
  rw [if_neg hplus, ← hct]
  exact parseDigits_natChars n

theorem parse_display_full (m mi pa : Nat) :
    parse_version (Version.display (.Semantic m (some mi) (some pa))) =
      Except.ok (.Semantic m (some mi) (some pa)) := by
  obtain ⟨c, t, hct, hdig⟩ := natChars_head m
  have hd : Version.display (.Semantic m (some mi) (some pa)) =
      natChars m ++ '.' :: (natChars mi ++ '.' :: natChars pa) := rfl
  have hne : natChars m ++ '.' :: (natChars mi ++ '.' :: natChars pa) ≠
      "latest".data := by
    rw [hct, latest_data, List.cons_append]
    intro h
    injection h with h1 _
    rw [h1] at hdig
    exact absurd hdig (by decide)
  have hstrip : stripLeadingV
      (natChars m ++ '.' :: (natChars mi ++ '.' :: natChars pa)) =
      natChars m ++ '.' :: (natChars mi ++ '.' :: natChars pa) := by
    rw [hct, List.cons_append]
    refine stripLeadingV_cons c _ ?_
    intro he; rw [he] at hdig; exact absurd hdig (by decide)
  have hsplit : splitChar '.'
      (natChars m ++ '.' :: (natChars mi ++ '.' :: natChars pa)) =
      [natChars m, natChars mi, natChars pa] := by
    rw [splitChar_append_sep '.' _ _ (not_dot_mem_natChars m),
        splitChar_append_sep '.' _ _ (not_dot_mem_natChars mi),
        splitChar_not_mem '.' _ (not_dot_mem_natChars pa)]
  rw [hd]
  unfold parse_version
  rw [if_neg hne, hstrip, hsplit]
  simp [parseUsize_natChars]

/-- C10 (confirmed): rendering any fully-qualified version with `Display` and
re-parsing it with `parse_version` yields the version back; the round trip
fails in general — `Semantic{1, None, Some(1)}` renders as `1` (Display
returns before printing the patch once the minor is absent) and re-parses as
`Semantic{1, None, None}`. -/
theorem display_parse_roundtrip :
    (∀ v : Version, v.fully_qualified = true →
      parse_version v.display = Except.ok v) ∧
    parse_version (Version.display (.Semantic 1 none (some 1))) =
      Except.ok (.Semantic 1 none none) ∧
    Version.Semantic 1 none none ≠ .Semantic 1 none (some 1) := by
  refine ⟨?_, rfl, by decide⟩
  intro v hv
  cases v with
  | Latest => rfl
  | Semantic m mi pa =>
    cases mi with
    | none => simp [Version.fully_qualified] at hv
    | some x =>
      cases pa with
      | none => simp [Version.fully_qualified] at hv
      | some y => exact parse_display_full m x y

/-- C10 witness: the round trip evaluated at the fully-qualified version
`1.2.3`. -/
theorem display_parse_roundtrip_witness :
    parse_version (Version.display (.Semantic 1 (some 2) (some 3))) =
      Except.ok (.Semantic 1 (some 2) (some 3)) :=
  display_parse_roundtrip.1 _ rfl

/-! ### Evaluation checks

The embedded functions evaluated on concrete inputs, mirroring the unit
tests of `src/docker.rs` (`parse_image`, `tag_latest`, `tag_semantic`,
`tag_semantic_with_leading_v`) plus the inputs the claims turn on. -/

example :
    Image.parse "test.com/user/test:version".data =
      .ok { registry := "test.com".data, nspace := some "user".data,
            name := "test".data, tag := "version".data } := rfl
example :
    Image.parse "user/test:version".data =
      .ok { registry := "registry.hub.docker.com".data, nspace := some "user".data,
            name := "test".data, tag := "version".data } := rfl
example :
    Image.parse "test:1.0:2.0".data =
      .ok { registry := "registry.hub.docker.com".data, nspace := none,
            name := "test".data, tag := "1.0:2.0".data } := rfl
example : Image.parse "a/b/c/d".data = .error "a/b/c/d".data := rfl
example : Image.parse "test.com".data = .error "test.com".data := rfl
example : Image.parse "us$er/test".data = .error "us$er/test".data := rfl
example :
    handle401 (some "Bearer realm=\"r\",service=\"s\"".data) = .panicked := rfl
example : handle401 none = .err .failedAuth := rfl
example :
    handle401 (some "Bearer realm=\"r\",service=\"s\",scope=\"sc\"".data) =
      .needsAuth { realm := "r".data, service := "s".data, scope := "sc".data } := rfl

example : splitOnceChar ':' "a:b:c".data = some ("a".data, "b:c".data) := by decide
example : splitChar '.' "1.2.rc1".data = ["1".data, "2".data, "rc1".data] := by decide
example : parse_version "1.2.rc1".data = .ok (.Semantic 1 (some 2) none) := rfl
example : parse_version "v1.2.3".data = .ok (.Semantic 1 (some 2) (some 3)) := rfl
example : parse_version "latest".data = .ok .Latest := rfl
example : Version.compareOpt (.Semantic 1 none none) (.Semantic 1 (some 0) none) = some .gt := by decide
example : Version.compareOpt (.Semantic 1 none (some 0)) (.Semantic 1 none (some 1)) = some .eq := by decide
example : (Version.Semantic 1 (some 2) (some 3)).display = "1.2.3".data := by decide
example : (Version.Semantic 1 none (some 1)).display = "1".data := by decide

end NomadVMonitor
